import Mathlib

/-!
Verification of the winSignal signal/slot library (src/winsignal.hpp) against
its design specification.  The C++ source is shallowly embedded: template
metaprograms over parameter-type packs become functions over lists of type
codes (`Nat`), pointers become their numeric bit patterns, `std::thread::id`
becomes `Nat`, and the stateful classes (`EventLoopManager`, `EventLoop`,
`Signal`, `Object`, `Timer`) become explicit state records with pure
transition functions mirroring the member functions line by line.
-/

namespace WinSignal

/-- winSignal::ConnectionType (winsignal.hpp lines 36-42). -/
inductive ConnectionType where
  | AutoConnection
  | DirectConnection
  | QueuedConnection
  | BlockingQueuedConnection
deriving DecidableEq, Repr

/-! ## Parameter-pack metaprogram (winsignal.hpp lines 85-187)

Types are represented by numeric codes; a parameter pack `std::tuple<T...>`
becomes a `List Nat` of the (already decayed) type codes, matching how
`TupleTake` first decays both packs before testing `is_subset_of`. -/

/-- Implementation::is_subset_of (lines 85-116).  When the two head types
differ the superset head is dropped (line 91); when they coincide the more
specialized partial specialization recurses on both tails (line 97); an empty
subset is accepted (lines 103, 115) and a non-empty subset against an empty
superset is rejected (line 109). -/
def is_subset_of : List Nat → List Nat → Bool
  | [], _ => true
  | _ :: _, [] => false
  | a :: as, b :: bs => if a = b then is_subset_of as bs else is_subset_of (a :: as) bs

/-- Implementation::find_next_index (lines 118-135): index of the first
occurrence of type `t` strictly after position `n` (with `n = -1` meaning a
search from the start).  The C++ template has no specialization for an empty
tuple, so an unsuccessful search is a compile error; the `[]` equation below
is dead code in every instantiation that compiles. -/
def find_next_index (n : Int) (t : Nat) : List Nat → Nat
  | [] => 0
  | u :: us =>
      if n = -1 then
        (if t = u then 0 else find_next_index (-1) t us + 1)
      else
        find_next_index (n - 1) t us + 1

/-- Implementation::find_all_index (lines 158-172): for each subset type, the
index in the superset found by `find_next_index` resuming after the
previously matched index. -/
def find_all_index (n : Int) : List Nat → List Nat → List Nat
  | [], _ => []
  | t :: ts, sup =>
      find_next_index n t sup
        :: find_all_index ((find_next_index n t sup : Nat) : Int) ts sup

/-- Implementation::TupleTake (lines 175-187), argument-selection part: the
call `std::apply(func, IndexList::MakeTupleByList(target))` passes the
emitted arguments at the indices computed by `find_all_index`, in order.
`sub`/`sup` are the decayed slot/signal parameter type codes and `args` the
emitted argument values. -/
def tupleTakeArgs (sub sup : List Nat) (args : List Nat) : List Nat :=
  (find_all_index (-1) sub sup).map (fun i => args.getD i 0)

/-! ## Address identity and the MSVC hash (lines 268-336)

`Implementation::Address` stores the object pointer and the bit pattern of
the member-function pointer; both are modelled as `Nat` bit patterns. -/

/-- Implementation::Address (lines 283-321).  For a free function the object
field is the null pointer 0 (line 312). -/
structure Addr where
  obj : Nat
  fn : Nat
deriving DecidableEq, Repr

/-- One step of the 64-bit FNV-1a hash used by MSVC std::hash over the byte
representation of a pointer. -/
def fnv1aStep (h b : Nat) : Nat := ((h ^^^ b) * 1099511628211) % 18446744073709551616

/-- The eight little-endian bytes of a 64-bit pointer value. -/
def bytes8 (p : Nat) : List Nat := (List.range 8).map (fun i => p / 256 ^ i % 256)

/-- MSVC std::hash for a 64-bit pointer: FNV-1a over its bytes.  The header
is declared msvc-only (line 14), so this is the std::hash the source runs
with. -/
def stdHashPtr (p : Nat) : Nat := (bytes8 p).foldl fnv1aStep 14695981039346656037

/-- Implementation::AddressHash (lines 323-336): h1 xor (h2 shifted left by
one, in size_t arithmetic). -/
def addressHash (a : Addr) : Nat :=
  stdHashPtr a.obj ^^^ (stdHashPtr a.fn * 2 % 18446744073709551616)

/-- MSVC std::unordered_map keeps a minimum of 8 buckets and selects the
bucket by masking the hash with bucketCount - 1; with at most 8 elements no
rehash occurs, so the count is constant here. -/
def bucketCount : Nat := 8

/-- Bucket index of an address in Signal::m_Handlers. -/
def bucketOf (a : Addr) : Nat := addressHash a % bucketCount

/-- Signal handler entry (lines 636-641): receiver home thread id recorded at
connect time, the type-erased invocable (identified by a token standing for
the shared_ptr target), and the connection kind. -/
structure HandlerM where
  id : Nat
  token : Nat
  type : ConnectionType
deriving DecidableEq, Repr

/-- Signal::m_Handlers (line 643), a std::unordered_map modelled by its
element list in iteration order.  MSVC's unordered containers keep all
elements in one list in which the members of a bucket are adjacent, so the
list order is the iteration order Emit sees. -/
abbrev UMap : Type := List (Addr × HandlerM)

/-- Empty handler map. -/
def emptyU : UMap := []

/-- Element count for a key, List::count-style. -/
def countKey (a : Addr) (m : UMap) : Nat := (m.filter (fun e => e.1 = a)).length

/-- unordered_map::count as a Bool (lines 650, 659). -/
def containsKeyU (m : UMap) (a : Addr) : Bool := m.any (fun e => e.1 = a)

/-- unordered_map::find / operator[] read access. -/
def lookupU : UMap → Addr → Option HandlerM
  | [], _ => none
  | e :: r, a => if e.1 = a then some e.2 else lookupU r a

/-- MSVC unordered insertion position: a new element whose bucket is already
occupied is linked adjacent to its bucket mates (here: directly after the
last of them); a new element of an empty bucket goes to the end of the
element list. -/
def insertByBucket (b : Nat) (e : Addr × HandlerM) : List (Addr × HandlerM) → List (Addr × HandlerM)
  | [] => [e]
  | x :: xs =>
      if bucketOf x.1 = b ∧ ¬ (xs.any (fun y => bucketOf y.1 = b)) then
        x :: e :: xs
      else
        x :: insertByBucket b e xs

/-- Signal::AddHandler (lines 647-654): insert only when the address is not
already present. -/
def AddHandler (m : UMap) (a : Addr) (h : HandlerM) : UMap :=
  if containsKeyU m a then m else insertByBucket (bucketOf a) (a, h) m

/-- Signal::RemoveHandler (lines 656-663): erase if present; erasing from the
MSVC element list keeps the order of the remaining elements. -/
def RemoveHandler (m : UMap) (a : Addr) : UMap :=
  if containsKeyU m a then m.filter (fun e => ¬ e.1 = a) else m

/-! ## Event loops, registry and task execution (lines 354-586)

A task in an event-loop message queue is either one of Emit's posted slot
invocations (identified by its handler token) or the repeating-timer lambda
of Timer::Start(interval), which emits the timeout signal (line 1094). -/

/-- A closure queued to or registered with an event loop. -/
inductive Task where
  | run (token : Nat)
  | emitTimeout
deriving DecidableEq, Repr

/-- EventLoop state (lines 401-415): owning thread (the thread that created
its internal window and will run its message pump), the m_Messages FIFO, the
repeating-timer registrations (id, interval, callback), and the
m_TimerIdAutoIncrease counter starting at WM_USER = 1024 (line 409). -/
structure LoopM where
  owner : Nat
  queue : List Task
  repeatT : List (Nat × Nat × Task)
  timerCounter : Nat
deriving DecidableEq, Repr

/-- A fresh EventLoop constructed on thread tid. -/
def freshLoop (tid : Nat) : LoopM :=
  { owner := tid, queue := [], repeatT := [], timerCounter := 1024 }

/-- First-match lookup in an association list (the reachable states keep the
keys unique, matching the std maps). -/
def assocLookup {α : Type} : List (Nat × α) → Nat → Option α
  | [], _ => none
  | e :: r, k => if e.1 = k then some e.2 else assocLookup r k

/-- Replace the value stored at a key. -/
def assocUpdate {α : Type} (l : List (Nat × α)) (k : Nat) (v : α) : List (Nat × α) :=
  l.map (fun e => if e.1 = k then (e.1, v) else e)

/-- Whole-process state: the EventLoopManager registry mapping a thread id to
the registered loop pointer (lines 354-396), the heap of loop objects keyed
by pointer, and a log of the executed tasks, each with the thread it ran on,
in execution order. -/
structure SysState where
  registry : List (Nat × Nat)
  loops : List (Nat × LoopM)
  log : List (Task × Nat)
deriving DecidableEq, Repr

/-- EventLoopManager::AddEventLoop (lines 372-376): unordered_map::insert
leaves the map unchanged when the calling thread already has an entry. -/
def addEventLoopReg (reg : List (Nat × Nat)) (tid ptr : Nat) : List (Nat × Nat) :=
  match assocLookup reg tid with
  | some _ => reg
  | none => reg ++ [(tid, ptr)]

/-- EventLoop construction on thread tid at heap pointer ptr (lines 418-422):
the loop object comes into being and registers itself for the constructing
thread. -/
def constructEventLoop (st : SysState) (tid ptr : Nat) : SysState :=
  { st with
    loops := st.loops ++ [(ptr, freshLoop tid)]
    registry := addEventLoopReg st.registry tid ptr }

/-- EventLoopManager::GetEventLoop / winSignal::GetEventLoop (lines 387-395,
1312-1315): nullptr when the thread has no registered loop. -/
def getEventLoopPtr (st : SysState) (tid : Nat) : Option Nat :=
  assocLookup st.registry tid

/-- Apply a function to the loop stored at a pointer. -/
def updateLoop (ptr : Nat) (f : LoopM → LoopM) (loops : List (Nat × LoopM)) : List (Nat × LoopM) :=
  loops.map (fun e => if e.1 = ptr then (e.1, f e.2) else e)

/-- EventLoop::PostEvent (lines 542-548): push the task at the back of the
FIFO and post a wake-up message; the task runs later, when the owning thread
pumps its queue. -/
def postEvent (st : SysState) (ptr : Nat) (t : Task) : SysState :=
  { st with loops := updateLoop ptr (fun l => { l with queue := l.queue ++ [t] }) st.loops }

/-- EventLoop::HandlerMessage (lines 473-486): swap the FIFO out under the
lock and execute the drained tasks in order on the owning thread. -/
def drainLoop (st : SysState) (ptr : Nat) : SysState :=
  match assocLookup st.loops ptr with
  | none => st
  | some l =>
      { st with
        loops := updateLoop ptr (fun l0 => { l0 with queue := [] }) st.loops
        log := st.log ++ l.queue.map (fun t => (t, l.owner)) }

/-- EventLoop::SendEvent (lines 550-558): enqueue, then ::SendMessage on the
internal window.  When the caller is the owning thread Windows dispatches the
window procedure inline, and in the cross-thread case the owning thread
dispatches it while the caller blocks; either way HandlerMessage has drained
the queue (running the tasks on the owning thread) before SendEvent
returns. -/
def sendEvent (st : SysState) (ptr : Nat) (t : Task) : SysState :=
  drainLoop (postEvent st ptr t) ptr

/-! ## Signal::Emit (lines 714-771) -/

/-- What Emit did with one handler: ran it inline on the emitting thread,
posted it to a loop, sent it to a loop, or skipped it. -/
inductive DispatchAction where
  | inline
  | posted (ptr : Nat)
  | sent (ptr : Nat)
  | skipped
deriving DecidableEq, Repr

/-- The dispatch of a single handler inside Emit's loop (lines 719-769),
switching on the connection kind exactly as the source does.  An inline
invocation appends the handler's run to the log on the emitting thread; a
queued dispatch posts the closure to the loop registered for the recorded
thread id, skipping silently when none is registered. -/
def dispatchOne (caller : Nat) (st : SysState) (h : HandlerM) : SysState × DispatchAction :=
  match h.type with
  | ConnectionType.AutoConnection =>
      if h.id = caller then
        ({ st with log := st.log ++ [(Task.run h.token, caller)] }, DispatchAction.inline)
      else
        match getEventLoopPtr st h.id with
        | some p => (postEvent st p (Task.run h.token), DispatchAction.posted p)
        | none => (st, DispatchAction.skipped)
  | ConnectionType.DirectConnection =>
      ({ st with log := st.log ++ [(Task.run h.token, caller)] }, DispatchAction.inline)
  | ConnectionType.QueuedConnection =>
      match getEventLoopPtr st h.id with
      | some p => (postEvent st p (Task.run h.token), DispatchAction.posted p)
      | none => (st, DispatchAction.skipped)
  | ConnectionType.BlockingQueuedConnection =>
      match getEventLoopPtr st h.id with
      | some p => (sendEvent st p (Task.run h.token), DispatchAction.sent p)
      | none => (st, DispatchAction.skipped)

/-- Signal::Emit's iteration over m_Handlers (lines 717-770): dispatch each
entry of the iteration list in turn, returning the final state together with
the per-entry trace of dispatch actions. -/
def signalEmit (caller : Nat) : List (Addr × HandlerM) → SysState →
    SysState × List (Addr × DispatchAction)
  | [], st => (st, [])
  | e :: rest, st =>
      ((signalEmit caller rest (dispatchOne caller st e.2).1).1,
        (e.1, (dispatchOne caller st e.2).2)
          :: (signalEmit caller rest (dispatchOne caller st e.2).1).2)

/-- A signal together with the process state. -/
structure World where
  sig : UMap
  sys : SysState
deriving DecidableEq, Repr

/-- Signal::Emit as seen from outside (lines 714-771): it reads m_Handlers
under the shared lock and dispatches; it contains no AddHandler or
RemoveHandler call, so the handler map component is passed through
unchanged. -/
def emitW (caller : Nat) (w : World) : World × List (Addr × DispatchAction) :=
  let r := signalEmit caller w.sig w.sys
  ({ w with sys := r.1 }, r.2)

/-! ## Object bookkeeping (lines 806-1019) and the Connect/Disconnect API
(lines 1126-1310)

Cleanup closures installed at connect time are identified by tokens; the
inner std::map of m_SendersList is an association list from function-pointer
bits to the closure token. -/

/-- Object state (lines 813-818): atomic home thread id m_Id, m_SendersList
and m_ReceiversList. -/
structure ObjState where
  id : Nat
  sendersL : List (Addr × List (Nat × Nat))
  receiversL : List (Addr × Nat)
deriving DecidableEq, Repr

/-- Key-presence in an association list keyed by Addr. -/
def containsA {α : Type} (l : List (Addr × α)) (a : Addr) : Bool :=
  l.any (fun e => e.1 = a)

/-- First-match lookup in an association list keyed by Addr. -/
def lookupA {α : Type} : List (Addr × α) → Addr → Option α
  | [], _ => none
  | e :: r, a => if e.1 = a then some e.2 else lookupA r a

/-- Replace the value stored under an Addr key. -/
def updateA {α : Type} (l : List (Addr × α)) (a : Addr) (v : α) : List (Addr × α) :=
  l.map (fun e => if e.1 = a then (e.1, v) else e)

/-- Object::AddSender (lines 820-825): m_SendersList[senderAddress] default
constructs an empty inner map when absent, and the inner std::map::insert is
a no-op when the function key is already present. -/
def addSenderO (o : ObjState) (sa : Addr) (fp tok : Nat) : ObjState :=
  match lookupA o.sendersL sa with
  | none => { o with sendersL := o.sendersL ++ [(sa, [(fp, tok)])] }
  | some inner =>
      if inner.any (fun e => e.1 = fp) then o
      else { o with sendersL := updateA o.sendersL sa (inner ++ [(fp, tok)]) }

/-- Object::AddReceiver (lines 827-832): operator[] assignment overwrites any
previous closure for the address. -/
def addReceiverO (o : ObjState) (ra : Addr) (tok : Nat) : ObjState :=
  if containsA o.receiversL ra then
    { o with receiversL := updateA o.receiversL ra tok }
  else
    { o with receiversL := o.receiversL ++ [(ra, tok)] }

/-- Object::RemoveSender (lines 834-838): m_SendersList.at(senderAddress)
raises std::out_of_range when the outer key is absent (modelled as `none`);
otherwise the inner map erases the function key, keeping the now possibly
empty outer entry. -/
def removeSenderO (o : ObjState) (sa : Addr) (fp : Nat) : Option ObjState :=
  match lookupA o.sendersL sa with
  | none => none
  | some inner =>
      some { o with sendersL := updateA o.sendersL sa (inner.filter (fun e => ¬ e.1 = fp)) }

/-- Object::RemoveReceiver (lines 840-844). -/
def removeReceiverO (o : ObjState) (ra : Addr) : ObjState :=
  { o with receiversL := o.receiversL.filter (fun e => ¬ e.1 = ra) }

/-- Object::ContainSender (lines 846-850): presence of the outer key only. -/
def containSenderO (o : ObjState) (sa : Addr) : Bool := containsA o.sendersL sa

/-- Object::ContainReceiver (lines 852-856). -/
def containReceiverO (o : ObjState) (ra : Addr) : Bool := containsA o.receiversL ra

/-- Object::MoveToThread (lines 889-902): stores the new home thread id. -/
def moveToThread (o : ObjState) (nid : Nat) : ObjState := { o with id := nid }

/-- The default value of the optional ConnectionType parameter in the
member-function and receiver-lambda Connect declarations (lines 59, 65,
71). -/
def defaultConnectionKind : ConnectionType := ConnectionType.AutoConnection

/-- The Object-to-Object member-function Connect (lines 1126-1167):
v_handler.id is first set to the calling thread (line 1136) and then, in the
Object branch, overwritten with receiver->ThreadId() read at connect time
(line 1146); the sender records the receiver-side cleanup closure (token
tokR), the receiver records the sender-side closure (token tokS), and the
handler is installed in the signal under the receiver address. -/
def connectMember (sig : UMap) (sender receiver : ObjState) (ra sa : Addr)
    (tok : Nat) (type : ConnectionType) (tokR tokS : Nat) :
    UMap × ObjState × ObjState :=
  let h : HandlerM := { id := receiver.id, token := tok, type := type }
  let sender1 := addReceiverO sender ra tokR
  let receiver1 := addSenderO receiver sa ra.fn tokS
  (AddHandler sig ra h, sender1, receiver1)

/-- The free-function Connect overload (lines 1253-1264): it has no
ConnectionType parameter at all and installs the handler with
DirectConnection and the calling thread's id, keyed on the null-object
address of the function pointer. -/
def connectFree (callerTid : Nat) (sig : UMap) (fnPtr tok : Nat) : UMap :=
  AddHandler sig { obj := 0, fn := fnPtr }
    { id := callerTid, token := tok, type := ConnectionType.DirectConnection }

/-- The receiver-less lambda Connect overload (lines 1306-1310): it has no
ConnectionType parameter and calls ImitationFunctionHelper with
DirectConnection; the receiver argument is nullptr, which is not an Object,
so the handler id stays the calling thread's id (lines 665-680). -/
def connectLambdaNoReceiver (callerTid : Nat) (sig : UMap) (lamAddr : Addr) (tok : Nat) : UMap :=
  AddHandler sig lamAddr
    { id := callerTid, token := tok, type := ConnectionType.DirectConnection }

/-- The Object-to-Object Disconnect (lines 1169-1187): remove the handler
from the signal, then, only when the sender still lists the receiver address
and the receiver still lists the sender address, remove the two inverse
entries.  `none` models the std::out_of_range that m_SendersList.at would
raise, which the guard makes unreachable. -/
def disconnectObj (sig : UMap) (sender receiver : ObjState) (ra sa : Addr) :
    Option (UMap × ObjState × ObjState) :=
  let sig1 := RemoveHandler sig ra
  if containReceiverO sender ra && containSenderO receiver sa then
    match removeSenderO receiver sa ra.fn with
    | some receiver1 => some (sig1, removeReceiverO sender ra, receiver1)
    | none => none
  else
    some (sig1, sender, receiver)

/-! ## Timer (lines 1054-1123) -/

/-- Timer state: the inherited Object home thread id and m_timerId
(line 1122). -/
structure TimerM where
  homeId : Nat
  timerId : Nat
deriving DecidableEq, Repr

/-- EventLoop::SetRepeatTimer (lines 520-528): the SendEvent closure runs on
the loop thread before the call returns; it calls ::SetTimer with the current
counter value (which ::SetTimer returns as the timer id for the non-null
internal window) and stores the callback under that id; the member counter is
then incremented and its previous value returned. -/
def setRepeatTimer (l : LoopM) (interval : Nat) (t : Task) : LoopM × Nat :=
  ({ l with
      repeatT := l.repeatT ++ [(l.timerCounter, interval, t)]
      timerCounter := l.timerCounter + 1 },
    l.timerCounter)

/-- Timer::Start(interval) (lines 1086-1098): no-op while IsAlive; otherwise
look up the EventLoop registered for std::this_thread::get_id() — the calling
thread, not the Timer's home thread — and, when one exists, register a
repeating timer whose callback emits the timeout signal, storing the returned
id.  (The heap lookup of a registered pointer cannot fail for states built by
constructEventLoop.) -/
def timerStart (caller : Nat) (st : SysState) (tm : TimerM) (interval : Nat) :
    SysState × TimerM :=
  if 0 < tm.timerId then (st, tm)
  else
    match getEventLoopPtr st caller with
    | none => (st, tm)
    | some p =>
        match assocLookup st.loops p with
        | none => (st, tm)
        | some l =>
            let r := setRepeatTimer l interval Task.emitTimeout
            ({ st with loops := updateLoop p (fun _ => r.1) st.loops },
              { tm with timerId := r.2 })

/-! ## Derived observation functions used by the theorems -/

/-- The task, if any, that dispatching entry `e` posts to the loop at pointer
`p`, as a function of the emitting thread and the registry. -/
def postsToLoop (caller : Nat) (reg : List (Nat × Nat)) (p : Nat) (e : Addr × HandlerM) :
    Option Task :=
  match e.2.type with
  | ConnectionType.AutoConnection =>
      if e.2.id = caller then none
      else
        match assocLookup reg e.2.id with
        | some q => if q = p then some (Task.run e.2.token) else none
        | none => none
  | ConnectionType.DirectConnection => none
  | ConnectionType.QueuedConnection =>
      match assocLookup reg e.2.id with
      | some q => if q = p then some (Task.run e.2.token) else none
      | none => none
  | ConnectionType.BlockingQueuedConnection => none

/-- The tasks an Emit over `entries` posts to the loop at `p`, in entry
order. -/
def postedToReg (caller : Nat) (reg : List (Nat × Nat)) (p : Nat)
    (entries : List (Addr × HandlerM)) : List Task :=
  entries.filterMap (postsToLoop caller reg p)

/-- The log record, if any, that dispatching entry `e` produces inline on the
emitting thread (Direct handlers, and Auto handlers whose recorded id is the
emitting thread). -/
def inlineRun (caller : Nat) (e : Addr × HandlerM) : Option (Task × Nat) :=
  match e.2.type with
  | ConnectionType.AutoConnection =>
      if e.2.id = caller then some (Task.run e.2.token, caller) else none
  | ConnectionType.DirectConnection => some (Task.run e.2.token, caller)
  | ConnectionType.QueuedConnection => none
  | ConnectionType.BlockingQueuedConnection => none

/-- The inline invocations an Emit over `entries` performs, in entry
order. -/
def inlineRuns (caller : Nat) (entries : List (Addr × HandlerM)) : List (Task × Nat) :=
  entries.filterMap (inlineRun caller)

/-- A handler-set mutation: what a Connect (AddHandler) or a Disconnect /
cleanup closure (RemoveHandler) performs on Signal::m_Handlers. -/
inductive SigOp where
  | add (a : Addr) (h : HandlerM)
  | remove (a : Addr)
deriving DecidableEq, Repr

/-- Apply one handler-set mutation. -/
def applySigOp (m : UMap) : SigOp → UMap
  | SigOp.add a h => AddHandler m a h
  | SigOp.remove a => RemoveHandler m a

/-- Apply a sequence of handler-set mutations in order. -/
def applySigOps (m : UMap) : List SigOp → UMap
  | [] => m
  | o :: os => applySigOps (applySigOp m o) os

/-! ## Helper lemmas -/

theorem assocLookup_append_self {α : Type} (reg : List (Nat × α)) (tid : Nat) (v : α)
    (h : assocLookup reg tid = none) : assocLookup (reg ++ [(tid, v)]) tid = some v := by
  induction reg with
  | nil => simp [assocLookup]
  | cons e r ih =>
      simp only [List.cons_append, assocLookup] at h ⊢
      by_cases he : e.1 = tid
      · rw [if_pos he] at h; exact absurd h (by simp)
      · rw [if_neg he] at h ⊢
        exact ih h

theorem containsKeyU_cons_false {x : Addr × HandlerM} {xs : List (Addr × HandlerM)} {a : Addr}
    (h : containsKeyU (x :: xs) a = false) :
    ¬ x.1 = a ∧ containsKeyU xs a = false := by
  simp [containsKeyU] at h ⊢
  exact h

theorem lookupU_insertByBucket (m : List (Addr × HandlerM)) (a : Addr) (h : HandlerM) (b : Nat)
    (hc : containsKeyU m a = false) :
    lookupU (insertByBucket b (a, h) m) a = some h := by
  induction m with
  | nil => simp [insertByBucket, lookupU]
  | cons x xs ih =>
      obtain ⟨hx, hxs⟩ := containsKeyU_cons_false hc
      unfold insertByBucket
      by_cases hcond : bucketOf x.1 = b ∧ ¬ (xs.any fun y => bucketOf y.1 = b) = true
      · rw [if_pos hcond]
        simp [lookupU, hx]
      · rw [if_neg hcond]
        unfold lookupU
        rw [if_neg hx]
        exact ih hxs

theorem lookupU_AddHandler_self (m : UMap) (a : Addr) (h : HandlerM)
    (hc : containsKeyU m a = false) :
    lookupU (AddHandler m a h) a = some h := by
  unfold AddHandler
  rw [hc]
  simpa using lookupU_insertByBucket m a h (bucketOf a) hc

/-! ## C3 — EventLoopRegistry registration -/

/-- C3, counterexample.  Register loop 10 for thread 1, then register loop 20
from the same thread: the second AddEventLoop is an unordered_map::insert
no-op, so the lookup still returns the first loop, not the most recently
registered one as the claim states. -/
theorem reregister_keeps_first_loop :
    getEventLoopPtr
        (constructEventLoop
          (constructEventLoop { registry := [], loops := [], log := [] } 1 10) 1 20) 1
      = some 10
    ∧ (10 : Nat) ≠ 20 := by
  constructor
  · rfl
  · decide

/-- C3, amended: registration is idempotent-by-first-writer.  At most one
loop is mapped per thread, re-registering from a thread that already has a
loop leaves the previous mapping in place (unordered_map::insert does not
overwrite), and a subsequent lookup returns the first registered loop. -/
theorem registry_first_writer_wins :
    ∀ (reg : List (Nat × Nat)) (tid p q : Nat),
      (assocLookup reg tid = some p →
        assocLookup (addEventLoopReg reg tid q) tid = some p)
      ∧ (assocLookup reg tid = none →
        assocLookup (addEventLoopReg reg tid q) tid = some q) := by
  intro reg tid p q
  constructor
  · intro h
    unfold addEventLoopReg
    rw [h]
    exact h
  · intro h
    unfold addEventLoopReg
    rw [h]
    exact assocLookup_append_self reg tid q h

/-- C3, witness for the amended theorem at a concrete registry. -/
theorem registry_first_writer_wins_witness :
    assocLookup (addEventLoopReg [(1, 10)] 1 20) 1 = some 10
    ∧ assocLookup (addEventLoopReg [] 1 20) 1 = some 20 :=
  ⟨(registry_first_writer_wins [(1, 10)] 1 10 20).1 rfl,
   (registry_first_writer_wins [] 1 10 20).2 rfl⟩

/-! ## C5 — default connection kind of the Connect overloads -/

/-- C5, counterexample.  The free-function Connect overload (lines 1253-1264)
has no ConnectionType parameter; it installs the handler with
DirectConnection, which differs from the claimed Auto default. -/
theorem free_function_connect_is_direct :
    lookupU (connectFree 1 emptyU 500 9) { obj := 0, fn := 500 }
      = some { id := 1, token := 9, type := ConnectionType.DirectConnection }
    ∧ ConnectionType.DirectConnection ≠ defaultConnectionKind := by
  constructor
  · rfl
  · decide

/-- C5, amended: only the member-function (and receiver-lambda) Connect
overloads take an optional kind defaulting to Auto; the free-function
overload and the receiver-less lambda overload take no kind argument and
always install a DirectConnection handler. -/
theorem connect_kind_defaults :
    ∀ (sig : UMap) (sender receiver : ObjState) (ra sa : Addr)
      (tok tokR tokS callerTid fnPtr lamTok : Nat) (lamAddr : Addr),
      (containsKeyU sig ra = false →
        lookupU (connectMember sig sender receiver ra sa tok defaultConnectionKind tokR tokS).1 ra
          = some { id := receiver.id, token := tok, type := ConnectionType.AutoConnection })
      ∧ (containsKeyU sig { obj := 0, fn := fnPtr } = false →
        lookupU (connectFree callerTid sig fnPtr tok) { obj := 0, fn := fnPtr }
          = some { id := callerTid, token := tok, type := ConnectionType.DirectConnection })
      ∧ (containsKeyU sig lamAddr = false →
        lookupU (connectLambdaNoReceiver callerTid sig lamAddr lamTok) lamAddr
          = some { id := callerTid, token := lamTok, type := ConnectionType.DirectConnection }) := by
  intro sig sender receiver ra sa tok tokR tokS callerTid fnPtr lamTok lamAddr
  refine ⟨fun hc => ?_, fun hc => ?_, fun hc => ?_⟩
  · exact lookupU_AddHandler_self sig ra _ hc
  · exact lookupU_AddHandler_self sig _ _ hc
  · exact lookupU_AddHandler_self sig _ _ hc

/-- C5, witness for the amended theorem on an empty signal. -/
theorem connect_kind_defaults_witness :
    lookupU (connectMember emptyU
        { id := 1, sendersL := [], receiversL := [] }
        { id := 2, sendersL := [], receiversL := [] }
        { obj := 8, fn := 9 } { obj := 6, fn := 7 } 11 defaultConnectionKind 21 22).1
        { obj := 8, fn := 9 }
      = some { id := 2, token := 11, type := ConnectionType.AutoConnection }
    ∧ lookupU (connectLambdaNoReceiver 3 emptyU { obj := 0, fn := 12 } 13) { obj := 0, fn := 12 }
      = some { id := 3, token := 13, type := ConnectionType.DirectConnection } :=
  ⟨(connect_kind_defaults emptyU
      { id := 1, sendersL := [], receiversL := [] }
      { id := 2, sendersL := [], receiversL := [] }
      { obj := 8, fn := 9 } { obj := 6, fn := 7 } 11 21 22 3 5 13
      { obj := 0, fn := 12 }).1 rfl,
   (connect_kind_defaults emptyU
      { id := 1, sendersL := [], receiversL := [] }
      { id := 2, sendersL := [], receiversL := [] }
      { obj := 8, fn := 9 } { obj := 6, fn := 7 } 13 21 22 3 5 13
      { obj := 0, fn := 12 }).2.2 rfl⟩

/-! ## C2 — slot parameter matching -/

open List in
theorem is_subset_of_sound :
    ∀ (sup sub : List Nat), is_subset_of sub sup = true → sub <+ sup := by
  intro sup
  induction sup with
  | nil =>
      intro sub h
      cases sub with
      | nil => exact List.Sublist.refl _
      | cons a as => simp [is_subset_of] at h
  | cons b bs ih =>
      intro sub h
      cases sub with
      | nil => exact List.nil_sublist _
      | cons a as =>
          unfold is_subset_of at h
          by_cases hab : a = b
          · rw [if_pos hab] at h
            subst hab
            exact List.Sublist.cons₂ a (ih as h)
          · rw [if_neg hab] at h
            exact List.Sublist.cons b (ih (a :: as) h)

open List in
theorem is_subset_of_complete :
    ∀ (sup sub : List Nat), sub <+ sup → is_subset_of sub sup = true := by
  intro sup
  induction sup with
  | nil =>
      intro sub h
      rw [List.sublist_nil.mp h]
      rfl
  | cons b bs ih =>
      intro sub h
      cases sub with
      | nil => rfl
      | cons a as =>
          unfold is_subset_of
          by_cases hab : a = b
          · rw [if_pos hab]
            subst hab
            apply ih
            cases h with
            | cons _ h2 => exact List.sublist_of_cons_sublist h2
            | cons₂ _ h2 => exact h2
          · rw [if_neg hab]
            apply ih
            cases h with
            | cons _ h2 => exact h2
            | cons₂ _ h2 => exact absurd rfl hab

theorem find_next_index_shift (t : Nat) :
    ∀ (pre rest : List Nat),
      find_next_index ((pre.length : Int) - 1) t (pre ++ rest)
        = pre.length + find_next_index (-1) t rest := by
  intro pre
  induction pre with
  | nil => simp
  | cons x xs ih =>
      intro rest
      have hne : ((x :: xs).length : Int) - 1 ≠ -1 := by
        simp only [List.length_cons]
        push_cast
        omega
      have harg : ((x :: xs).length : Int) - 1 - 1 = (xs.length : Int) - 1 := by
        simp only [List.length_cons]
        push_cast
        ring
      simp only [List.cons_append, find_next_index, if_neg hne]
      rw [harg]
      simp only [List.append_eq]
      rw [ih rest]
      simp only [List.length_cons]
      omega

theorem find_all_index_prefix_shift :
    ∀ (sub pre rest : List Nat), sub <+: rest →
      find_all_index ((pre.length : Int) - 1) sub (pre ++ rest)
        = (List.range sub.length).map (· + pre.length) := by
  intro sub
  induction sub with
  | nil => intro pre rest _; simp [find_all_index]
  | cons a as ih =>
      intro pre rest hpre
      obtain ⟨t, ht⟩ := hpre
      subst ht
      simp only [List.cons_append] at *
      have h0 : find_next_index (-1) a (a :: (as ++ t)) = 0 := by
        simp [find_next_index]
      have h1 : find_next_index ((pre.length : Int) - 1) a (pre ++ a :: (as ++ t))
          = pre.length := by
        rw [find_next_index_shift a pre (a :: (as ++ t)), h0]
        omega
      unfold find_all_index
      rw [h1]
      have hres : pre ++ a :: (as ++ t) = (pre ++ [a]) ++ (as ++ t) := by
        simp
      have hlen : (((pre ++ [a]).length : Int) - 1) = ((pre.length : Nat) : Int) := by
        simp
      have ih2 := ih (pre ++ [a]) (as ++ t) ⟨t, rfl⟩
      rw [hlen, ← hres] at ih2
      rw [ih2]
      have hlen2 : (pre ++ [a]).length = pre.length + 1 := by simp
      rw [hlen2]
      rw [List.length_cons, List.range_succ_eq_map]
      simp only [List.map_cons, List.map_map, Nat.zero_add]
      congr 1
      congr 1
      funext x
      simp only [Function.comp_apply, Nat.succ_eq_add_one]
      omega

/-- C2, counterexample.  The slot parameter list [1] (one parameter of type
code 1) is not a prefix of the signal parameter list [0, 1], yet
is_subset_of accepts it — the check admits any subsequence, so skipping
signal parameters type-checks, contradicting the claim; moreover dispatch
then forwards the argument at the matched index (the second emitted
argument, 20), not the first k = 1 arguments. -/
theorem subsequence_slot_type_checks :
    is_subset_of [1] [0, 1] = true
    ∧ ¬ [1] <+: [0, 1]
    ∧ tupleTakeArgs [1] [0, 1] [10, 20] = [20]
    ∧ ([20] : List Nat) ≠ [10] := by
  refine ⟨rfl, ?_, rfl, by decide⟩
  rintro ⟨t, ht⟩
  simp at ht

/-- C2, amended: Connect type-checks exactly when the slot's decayed
parameter-type sequence is a subsequence (not necessarily a prefix) of the
signal's decayed parameter-type sequence, the forwarded arguments being
those at the greedily matched indices; when the slot parameters do form a
prefix, those indices are 0..k-1, i.e. the first k arguments are
forwarded. -/
theorem is_subset_of_iff_sublist :
    ∀ (sub sup : List Nat),
      (is_subset_of sub sup = true ↔ List.Sublist sub sup)
      ∧ (sub <+: sup → find_all_index (-1) sub sup = List.range sub.length) := by
  intro sub sup
  constructor
  · exact ⟨is_subset_of_sound sup sub, is_subset_of_complete sup sub⟩
  · intro hpre
    have h := find_all_index_prefix_shift sub [] sup hpre
    simpa using h

/-- C2, witness for the amended theorem at concrete type-code lists. -/
theorem is_subset_of_iff_sublist_witness :
    (List.Sublist [3, 4] [3, 4, 5])
    ∧ find_all_index (-1) [3, 4] [3, 4, 5] = List.range 2 :=
  ⟨((is_subset_of_iff_sublist [3, 4] [3, 4, 5]).1).mp rfl,
   by
     have h := (is_subset_of_iff_sublist [3, 4] [3, 4, 5]).2 ⟨[5], rfl⟩
     simpa using h⟩

/-! ## Emit invariants shared by C1, C4, C6 and C7 -/

theorem assocLookup_updateLoop_self (loops : List (Nat × LoopM)) (p : Nat) (f : LoopM → LoopM) :
    assocLookup (updateLoop p f loops) p = (assocLookup loops p).map f := by
  induction loops with
  | nil => rfl
  | cons e r ih =>
      unfold updateLoop at *
      simp only [List.map_cons]
      by_cases he : e.1 = p
      · simp [assocLookup, he]
      · simp only [assocLookup, if_neg he]
        exact ih

theorem assocLookup_updateLoop_other (loops : List (Nat × LoopM)) (p q : Nat) (f : LoopM → LoopM)
    (hne : q ≠ p) :
    assocLookup (updateLoop p f loops) q = assocLookup loops q := by
  induction loops with
  | nil => rfl
  | cons e r ih =>
      unfold updateLoop at *
      simp only [List.map_cons]
      by_cases he : e.1 = p
      · have hq : ¬ e.1 = q := fun hx => hne (hx.symm.trans he)
        rw [if_pos he]
        simp only [assocLookup, if_neg hq]
        exact ih
      · rw [if_neg he]
        simp only [assocLookup]
        by_cases h2 : e.1 = q
        · rw [if_pos h2, if_pos h2]
        · rw [if_neg h2, if_neg h2]
          exact ih

theorem dispatchOne_registry (caller : Nat) (st : SysState) (h : HandlerM) :
    (dispatchOne caller st h).1.registry = st.registry := by
  unfold dispatchOne sendEvent drainLoop postEvent
  split <;> (repeat' split) <;> rfl

theorem signalEmit_registry (caller : Nat) :
    ∀ (entries : List (Addr × HandlerM)) (st : SysState),
      ((signalEmit caller entries st).1).registry = st.registry := by
  intro entries
  induction entries with
  | nil => intro st; rfl
  | cons e rest ih =>
      intro st
      simp only [signalEmit]
      rw [ih]
      exact dispatchOne_registry caller st e.2

theorem signalEmit_trace_fst (caller : Nat) :
    ∀ (entries : List (Addr × HandlerM)) (st : SysState),
      ((signalEmit caller entries st).2).map Prod.fst = entries.map Prod.fst := by
  intro entries
  induction entries with
  | nil => intro st; rfl
  | cons e rest ih =>
      intro st
      simp only [signalEmit, List.map_cons]
      rw [ih]

theorem signalEmit_log (caller : Nat) :
    ∀ (entries : List (Addr × HandlerM)) (st : SysState),
      (∀ e ∈ entries, e.2.type ≠ ConnectionType.BlockingQueuedConnection) →
      ((signalEmit caller entries st).1).log = st.log ++ inlineRuns caller entries := by
  intro entries
  induction entries with
  | nil => intro st _; simp [signalEmit, inlineRuns]
  | cons e rest ih =>
      intro st hbq
      have hbqr : ∀ x ∈ rest, x.2.type ≠ ConnectionType.BlockingQueuedConnection :=
        fun x hx => hbq x (List.mem_cons_of_mem _ hx)
      have hbq1 : e.2.type ≠ ConnectionType.BlockingQueuedConnection :=
        hbq e (List.mem_cons_self _ _)
      simp only [signalEmit]
      cases htype : e.2.type with
      | AutoConnection =>
          by_cases hid : e.2.id = caller
          · simp only [dispatchOne, htype, if_pos hid]
            rw [ih _ hbqr]
            simp [inlineRuns, inlineRun, htype, hid]
          · cases hq : getEventLoopPtr st e.2.id with
            | some p =>
                simp only [dispatchOne, htype, if_neg hid, hq]
                rw [ih _ hbqr]
                simp [inlineRuns, inlineRun, htype, hid, postEvent]
            | none =>
                simp only [dispatchOne, htype, if_neg hid, hq]
                rw [ih _ hbqr]
                simp [inlineRuns, inlineRun, htype, hid]
      | DirectConnection =>
          simp only [dispatchOne, htype]
          rw [ih _ hbqr]
          simp [inlineRuns, inlineRun, htype]
      | QueuedConnection =>
          cases hq : getEventLoopPtr st e.2.id with
          | some p =>
              simp only [dispatchOne, htype, hq]
              rw [ih _ hbqr]
              simp [inlineRuns, inlineRun, htype, postEvent]
          | none =>
              simp only [dispatchOne, htype, hq]
              rw [ih _ hbqr]
              simp [inlineRuns, inlineRun, htype]
      | BlockingQueuedConnection => exact absurd htype hbq1

theorem signalEmit_queue (caller p : Nat) :
    ∀ (entries : List (Addr × HandlerM)) (st : SysState) (l : LoopM),
      (∀ e ∈ entries, e.2.type ≠ ConnectionType.BlockingQueuedConnection) →
      assocLookup st.loops p = some l →
      assocLookup ((signalEmit caller entries st).1).loops p
        = some { l with queue := l.queue ++ postedToReg caller st.registry p entries } := by
  intro entries
  induction entries with
  | nil =>
      intro st l _ hl
      simpa [signalEmit, postedToReg] using hl
  | cons e rest ih =>
      intro st l hbq hl
      have hbqr : ∀ x ∈ rest, x.2.type ≠ ConnectionType.BlockingQueuedConnection :=
        fun x hx => hbq x (List.mem_cons_of_mem _ hx)
      have hbq1 : e.2.type ≠ ConnectionType.BlockingQueuedConnection :=
        hbq e (List.mem_cons_self _ _)
      simp only [signalEmit]
      cases htype : e.2.type with
      | AutoConnection =>
          by_cases hid : e.2.id = caller
          · simp only [dispatchOne, htype, if_pos hid]
            rw [ih { st with log := st.log ++ [(Task.run e.2.token, caller)] } l hbqr hl]
            simp [postedToReg, postsToLoop, htype, hid, List.filterMap_cons]
          · cases hq : getEventLoopPtr st e.2.id with
            | some q =>
                simp only [dispatchOne, htype, if_neg hid, hq]
                simp only [getEventLoopPtr] at hq
                by_cases hqp : q = p
                · subst hqp
                  have h1 : assocLookup (postEvent st q (Task.run e.2.token)).loops q
                      = some { l with queue := l.queue ++ [Task.run e.2.token] } := by
                    simp only [postEvent]
                    rw [assocLookup_updateLoop_self, hl]
                    rfl
                  rw [ih _ _ hbqr h1]
                  simp [postedToReg, postsToLoop, htype, hid, hq, postEvent,
                    List.filterMap_cons]
                · have h1 : assocLookup (postEvent st q (Task.run e.2.token)).loops p
                      = some l := by
                    simp only [postEvent]
                    rw [assocLookup_updateLoop_other _ _ _ _ (fun hx => hqp hx.symm)]
                    exact hl
                  rw [ih _ _ hbqr h1]
                  simp [postedToReg, postsToLoop, htype, hid, hq, hqp, postEvent,
                    List.filterMap_cons]
            | none =>
                simp only [dispatchOne, htype, if_neg hid, hq]
                simp only [getEventLoopPtr] at hq
                rw [ih st l hbqr hl]
                simp [postedToReg, postsToLoop, htype, hid, hq, List.filterMap_cons]
      | DirectConnection =>
          simp only [dispatchOne, htype]
          rw [ih { st with log := st.log ++ [(Task.run e.2.token, caller)] } l hbqr hl]
          simp [postedToReg, postsToLoop, htype, List.filterMap_cons]
      | QueuedConnection =>
          cases hq : getEventLoopPtr st e.2.id with
          | some q =>
              simp only [dispatchOne, htype, hq]
              simp only [getEventLoopPtr] at hq
              by_cases hqp : q = p
              · subst hqp
                have h1 : assocLookup (postEvent st q (Task.run e.2.token)).loops q
                    = some { l with queue := l.queue ++ [Task.run e.2.token] } := by
                  simp only [postEvent]
                  rw [assocLookup_updateLoop_self, hl]
                  rfl
                rw [ih _ _ hbqr h1]
                simp [postedToReg, postsToLoop, htype, hq, postEvent, List.filterMap_cons]
              · have h1 : assocLookup (postEvent st q (Task.run e.2.token)).loops p
                    = some l := by
                  simp only [postEvent]
                  rw [assocLookup_updateLoop_other _ _ _ _ (fun hx => hqp hx.symm)]
                  exact hl
                rw [ih _ _ hbqr h1]
                simp [postedToReg, postsToLoop, htype, hq, hqp, postEvent,
                  List.filterMap_cons]
          | none =>
              simp only [dispatchOne, htype, hq]
              simp only [getEventLoopPtr] at hq
              rw [ih st l hbqr hl]
              simp [postedToReg, postsToLoop, htype, hq, List.filterMap_cons]
      | BlockingQueuedConnection => exact absurd htype hbq1

/-! ## C1 — dispatch order of Emit -/

/-- C1, counterexample.  Three Direct handlers are added in the order of the
tokens 101, 102, 103.  The addresses with object pointers 0x1000 and 0x1008
share hash bucket 7 of Signal::m_Handlers (an 8-bucket MSVC unordered_map
hashing FNV-1a pointer hashes), while 0x1100 falls in bucket 0, so the
element list groups the bucket mates adjacently and Emit executes the
handlers in the order 101, 103, 102 — not in insertion order as the claim
states. -/
theorem emit_order_not_insertion_order :
    (AddHandler (AddHandler (AddHandler emptyU
        { obj := 4096, fn := 4096 }
        { id := 1, token := 101, type := ConnectionType.DirectConnection })
        { obj := 4352, fn := 4096 }
        { id := 1, token := 102, type := ConnectionType.DirectConnection })
        { obj := 4104, fn := 4096 }
        { id := 1, token := 103, type := ConnectionType.DirectConnection }).map
        (fun e => e.2.token)
      = [101, 103, 102]
    ∧ (signalEmit 1
        (AddHandler (AddHandler (AddHandler emptyU
          { obj := 4096, fn := 4096 }
          { id := 1, token := 101, type := ConnectionType.DirectConnection })
          { obj := 4352, fn := 4096 }
          { id := 1, token := 102, type := ConnectionType.DirectConnection })
          { obj := 4104, fn := 4096 }
          { id := 1, token := 103, type := ConnectionType.DirectConnection })
        { registry := [], loops := [], log := [] }).1.log
      = [(Task.run 101, 1), (Task.run 103, 1), (Task.run 102, 1)]
    ∧ ([101, 103, 102] : List Nat) ≠ [101, 102, 103] := by
  refine ⟨by decide, by decide, by decide⟩

/-- C1, amended: Emit iterates the handler set (under the shared lock) in
the unordered_map's iteration order — which groups hash-bucket mates and is
not insertion order in general — dispatching every entry exactly once in
that order; in an emit with no BlockingQueued handler, the inline (Direct
and Auto-same-thread) invocations extend the log in iteration order, and
the Posts to any one loop are issued in iteration order. -/
theorem emit_follows_iteration_order :
    ∀ (caller : Nat) (m : UMap) (st : SysState),
      ((signalEmit caller m st).2).map Prod.fst = m.map Prod.fst
      ∧ ((∀ e ∈ (m : List (Addr × HandlerM)), e.2.type ≠ ConnectionType.BlockingQueuedConnection) →
          ((signalEmit caller m st).1).log = st.log ++ inlineRuns caller m
          ∧ ∀ (p : Nat) (l : LoopM), assocLookup st.loops p = some l →
              assocLookup ((signalEmit caller m st).1).loops p
                = some { l with queue := l.queue ++ postedToReg caller st.registry p m }) := by
  intro caller m st
  refine ⟨signalEmit_trace_fst caller m st, fun hbq => ⟨signalEmit_log caller m st hbq, ?_⟩⟩
  intro p l hl
  exact signalEmit_queue caller p m st l hbq hl

/-- C1, witness for the amended theorem: one Queued handler for thread 2
whose loop is registered at pointer 30; the Post is issued to that loop's
queue. -/
theorem emit_follows_iteration_order_witness :
    assocLookup ((signalEmit 1
        [({ obj := 1, fn := 2 },
          { id := 2, token := 7, type := ConnectionType.QueuedConnection })]
        (constructEventLoop { registry := [], loops := [], log := [] } 2 30)).1).loops 30
      = some { owner := 2, queue := [Task.run 7], repeatT := [], timerCounter := 1024 } := by
  have h := (emit_follows_iteration_order 1
      [({ obj := 1, fn := 2 },
        { id := 2, token := 7, type := ConnectionType.QueuedConnection })]
      (constructEventLoop { registry := [], loops := [], log := [] } 2 30)).2
      (by decide)
  have h2 := h.2 30 (freshLoop 2) rfl
  exact h2.trans (by decide)

/-! ## C6 — at most one handler per receiver address -/

theorem countKey_cons (x : Addr × HandlerM) (xs : List (Addr × HandlerM)) (a : Addr) :
    countKey a (x :: xs) = (if x.1 = a then 1 else 0) + countKey a xs := by
  unfold countKey
  by_cases hx : x.1 = a
  · simp [List.filter_cons, hx, Nat.add_comm]
  · simp [List.filter_cons, hx]

theorem countKey_eq_zero_of_not_contains (m : UMap) (a : Addr) :
    containsKeyU m a = false → countKey a m = 0 := by
  induction m with
  | nil => intro _; rfl
  | cons x xs ih =>
      intro hc
      obtain ⟨hx, hxs⟩ := containsKeyU_cons_false hc
      rw [countKey_cons, if_neg hx, ih hxs]

theorem countKey_insertByBucket (b : Nat) (e : Addr × HandlerM) :
    ∀ (m : List (Addr × HandlerM)) (a : Addr),
      countKey a (insertByBucket b e m) = countKey a m + (if e.1 = a then 1 else 0) := by
  intro m
  induction m with
  | nil =>
      intro a
      by_cases he : e.1 = a <;> simp [insertByBucket, countKey_cons, countKey, he]
  | cons x xs ih =>
      intro a
      unfold insertByBucket
      by_cases hcond : bucketOf x.1 = b ∧ ¬ (xs.any fun y => bucketOf y.1 = b) = true
      · rw [if_pos hcond]
        rw [countKey_cons, countKey_cons, countKey_cons]
        omega
      · rw [if_neg hcond]
        rw [countKey_cons, ih, countKey_cons]
        omega

theorem applySigOps_at_most_one :
    ∀ (ops : List SigOp) (m : UMap),
      (∀ b, countKey b m ≤ 1) → ∀ b, countKey b (applySigOps m ops) ≤ 1 := by
  intro ops
  induction ops with
  | nil => intro m hm; exact hm
  | cons o os ih =>
      intro m hm
      apply ih
      intro b
      cases o with
      | add a h =>
          simp only [applySigOp, AddHandler]
          by_cases hc : containsKeyU m a
          · rw [if_pos hc]; exact hm b
          · rw [if_neg hc]
            rw [countKey_insertByBucket]
            by_cases hab : a = b
            · subst hab
              rw [countKey_eq_zero_of_not_contains m a (by simpa using hc)]
              simp
            · simp only [hab, if_false]
              simpa using hm b
      | remove a =>
          simp only [applySigOp, RemoveHandler]
          by_cases hc : containsKeyU m a
          · rw [if_pos hc]
            calc countKey b (m.filter (fun e => ¬ e.1 = a))
                ≤ countKey b m := by
                  unfold countKey
                  exact List.Sublist.length_le
                    (List.Sublist.filter _ (List.filter_sublist m))
              _ ≤ 1 := hm b
          · rw [if_neg hc]; exact hm b

theorem emit_dispatch_count (caller : Nat) (st : SysState) (m : UMap) (a : Addr) :
    ((signalEmit caller m st).2.filter (fun e => e.1 = a)).length = countKey a m := by
  have h1 := signalEmit_trace_fst caller m st
  unfold countKey
  rw [← List.countP_eq_length_filter, ← List.countP_eq_length_filter]
  have h2 : List.countP (fun e => decide (e.1 = a)) (signalEmit caller m st).2
      = List.countP (fun x => decide (x = a)) (((signalEmit caller m st).2).map Prod.fst) := by
    rw [List.countP_map]
    rfl
  have h3 : List.countP (fun e => decide (e.1 = a)) (m : List (Addr × HandlerM))
      = List.countP (fun x => decide (x = a)) (m.map Prod.fst) := by
    rw [List.countP_map]
    rfl
  rw [h2, h3, h1]

/-- C6: a Signal holds at most one Handler per receiver Address: under any
sequence of AddHandler/RemoveHandler mutations starting from the empty map
every address has count at most 1; AddHandler on a present address is a
no-op; a first AddHandler leaves the count at exactly 1 and a duplicate
AddHandler changes nothing; and one Emit dispatches each address at most
once (its dispatch count equals the address count in the handler set). -/
theorem at_most_one_handler_per_address :
    (∀ (ops : List SigOp) (a : Addr), countKey a (applySigOps emptyU ops) ≤ 1)
    ∧ (∀ (m : UMap) (a : Addr) (h : HandlerM), containsKeyU m a = true → AddHandler m a h = m)
    ∧ (∀ (m : UMap) (a : Addr) (h h₂ : HandlerM), containsKeyU m a = false →
        countKey a (AddHandler m a h) = 1
        ∧ AddHandler (AddHandler m a h) a h₂ = AddHandler m a h)
    ∧ (∀ (caller : Nat) (st : SysState) (ops : List SigOp) (a : Addr),
        ((signalEmit caller (applySigOps emptyU ops) st).2.filter
          (fun e => e.1 = a)).length ≤ 1) := by
  have hcount1 : ∀ (m : UMap) (a : Addr) (h : HandlerM), containsKeyU m a = false →
      countKey a (AddHandler m a h) = 1 := by
    intro m a h hc
    unfold AddHandler
    rw [hc]
    simp only [Bool.false_eq_true, if_false]
    rw [countKey_insertByBucket]
    rw [countKey_eq_zero_of_not_contains m a hc]
    simp
  have hnoop : ∀ (m : UMap) (a : Addr) (h : HandlerM),
      containsKeyU m a = true → AddHandler m a h = m := by
    intro m a h hc
    unfold AddHandler
    rw [hc]
    simp
  refine ⟨?_, hnoop, ?_, ?_⟩
  · intro ops a
    exact applySigOps_at_most_one ops emptyU (fun b => by simp [countKey, emptyU]) a
  · intro m a h h₂ hc
    refine ⟨hcount1 m a h hc, ?_⟩
    by_cases hc2 : containsKeyU (AddHandler m a h) a
    · exact hnoop _ a h₂ hc2
    · exfalso
      have hz := countKey_eq_zero_of_not_contains _ a (by simpa using hc2)
      rw [hcount1 m a h hc] at hz
      exact Nat.one_ne_zero hz
  · intro caller st ops a
    rw [emit_dispatch_count]
    exact applySigOps_at_most_one ops emptyU (fun b => by simp [countKey, emptyU]) a

/-- C6, witness: a duplicate AddHandler under the same address is a no-op
and leaves the count at 1. -/
theorem at_most_one_handler_per_address_witness :
    AddHandler (AddHandler emptyU { obj := 1, fn := 2 }
        { id := 1, token := 5, type := ConnectionType.DirectConnection })
        { obj := 1, fn := 2 }
        { id := 1, token := 6, type := ConnectionType.DirectConnection }
      = AddHandler emptyU { obj := 1, fn := 2 }
          { id := 1, token := 5, type := ConnectionType.DirectConnection }
    ∧ countKey { obj := 1, fn := 2 }
        (AddHandler emptyU { obj := 1, fn := 2 }
          { id := 1, token := 5, type := ConnectionType.DirectConnection }) = 1 := by
  have h := at_most_one_handler_per_address.2.2.1 emptyU { obj := 1, fn := 2 }
      { id := 1, token := 5, type := ConnectionType.DirectConnection }
      { id := 1, token := 6, type := ConnectionType.DirectConnection } rfl
  exact ⟨h.2, h.1⟩

/-! ## C7 — silent skip of Queued handlers without a registered loop -/

theorem signalEmit_append (caller : Nat) :
    ∀ (xs ys : List (Addr × HandlerM)) (st : SysState),
      signalEmit caller (xs ++ ys) st
        = ((signalEmit caller ys (signalEmit caller xs st).1).1,
            (signalEmit caller xs st).2
              ++ (signalEmit caller ys (signalEmit caller xs st).1).2) := by
  intro xs
  induction xs with
  | nil => intro ys st; simp [signalEmit]
  | cons e rest ih =>
      intro ys st
      simp only [List.cons_append, signalEmit, List.append_eq]
      rw [ih]

/-- C7: a Queued handler (or an Auto handler resolved to Queued because its
recorded thread differs from the emitting thread) whose recorded thread-id
has no registered EventLoop is silently skipped: the emit's final state is
the one of the same emit without that handler, its trace entry is skipped
while every other handler is still dispatched in order, and Emit never
changes the handler set, so the handler remains registered for later
emits. -/
theorem queued_emit_skips_unregistered_thread :
    ∀ (caller : Nat) (st : SysState) (pre post : List (Addr × HandlerM))
      (a : Addr) (h : HandlerM),
      (h.type = ConnectionType.QueuedConnection
        ∨ (h.type = ConnectionType.AutoConnection ∧ h.id ≠ caller)) →
      getEventLoopPtr st h.id = none →
      (signalEmit caller (pre ++ (a, h) :: post) st).1
        = (signalEmit caller (pre ++ post) st).1
      ∧ (signalEmit caller (pre ++ (a, h) :: post) st).2
        = (signalEmit caller pre st).2
            ++ (a, DispatchAction.skipped)
              :: (signalEmit caller post (signalEmit caller pre st).1).2
      ∧ (∀ (w : World) (c : Nat), ((emitW c w).1).sig = w.sig) := by
  intro caller st pre post a h hk hnone
  have hreg : getEventLoopPtr (signalEmit caller pre st).1 h.id = none := by
    unfold getEventLoopPtr at hnone ⊢
    rw [signalEmit_registry]
    exact hnone
  have hdisp : dispatchOne caller (signalEmit caller pre st).1 h
      = ((signalEmit caller pre st).1, DispatchAction.skipped) := by
    rcases hk with hq | ⟨ha, hid⟩
    · simp [dispatchOne, hq, hreg]
    · simp [dispatchOne, ha, hid, hreg]
  refine ⟨?_, ?_, fun w c => rfl⟩
  · rw [signalEmit_append caller pre ((a, h) :: post) st,
      signalEmit_append caller pre post st]
    simp only [signalEmit, hdisp]
  · rw [signalEmit_append caller pre ((a, h) :: post) st]
    simp only [signalEmit, hdisp]

/-- C7, witness: a Queued handler for thread 5, no loop registered. -/
theorem queued_emit_skips_unregistered_thread_witness :
    (signalEmit 1
        [({ obj := 3, fn := 4 },
          { id := 5, token := 9, type := ConnectionType.QueuedConnection })]
        { registry := [], loops := [], log := [] }).1
      = (signalEmit 1 [] { registry := [], loops := [], log := [] }).1
    ∧ (signalEmit 1
        [({ obj := 3, fn := 4 },
          { id := 5, token := 9, type := ConnectionType.QueuedConnection })]
        { registry := [], loops := [], log := [] }).2
      = [({ obj := 3, fn := 4 }, DispatchAction.skipped)] := by
  have h := queued_emit_skips_unregistered_thread 1
      { registry := [], loops := [], log := [] } [] []
      { obj := 3, fn := 4 }
      { id := 5, token := 9, type := ConnectionType.QueuedConnection }
      (Or.inl rfl) rfl
  exact ⟨h.1, h.2.1⟩

/-! ## C4 — BlockingQueued emit from the receiver's own thread -/

/-- C4: for a BlockingQueued handler whose recorded thread-id equals the
emitting thread and whose loop is registered, Emit's SendEvent runs the
handler synchronously on the emitting thread before Emit returns (Windows
dispatches a same-thread SendMessage inline): the run is in the log on the
emitting thread and the loop's queue is drained; when no loop is registered
for the recorded thread-id the handler is skipped and the state is
untouched. -/
theorem blocking_queued_self_emit_runs_inline :
    ∀ (caller : Nat) (st : SysState) (a : Addr) (h : HandlerM) (p : Nat) (l : LoopM),
      h.type = ConnectionType.BlockingQueuedConnection →
      h.id = caller →
      (getEventLoopPtr st caller = some p →
        assocLookup st.loops p = some l →
        l.owner = caller →
        (Task.run h.token, caller) ∈ ((signalEmit caller [(a, h)] st).1).log
        ∧ assocLookup ((signalEmit caller [(a, h)] st).1).loops p
            = some { l with queue := [] }
        ∧ (signalEmit caller [(a, h)] st).2 = [(a, DispatchAction.sent p)])
      ∧ (getEventLoopPtr st caller = none →
        signalEmit caller [(a, h)] st = (st, [(a, DispatchAction.skipped)])) := by
  intro caller st a h p l htype hid
  constructor
  · intro hreg hloop howner
    have hq : getEventLoopPtr st h.id = some p := by rw [hid]; exact hreg
    have h1 : assocLookup
        (updateLoop p (fun l0 => { l0 with queue := l0.queue ++ [Task.run h.token] }) st.loops)
        p
        = some { l with queue := l.queue ++ [Task.run h.token] } := by
      rw [assocLookup_updateLoop_self, hloop]
      rfl
    simp only [signalEmit, dispatchOne, htype, hq, sendEvent, postEvent, drainLoop, h1]
    refine ⟨?_, ?_, ?_⟩
    · rw [howner]
      simp
    · rw [assocLookup_updateLoop_self, assocLookup_updateLoop_self, hloop]
      rfl
    · trivial
  · intro hnone
    have hq : getEventLoopPtr st h.id = none := by rw [hid]; exact hnone
    simp only [signalEmit, dispatchOne, htype, hq]

/-- C4, witness: thread 1 owns the registered loop 10 and emits to a
BlockingQueued handler recorded for thread 1. -/
theorem blocking_queued_self_emit_runs_inline_witness :
    (Task.run 42, 1) ∈ ((signalEmit 1
        [({ obj := 3, fn := 4 },
          { id := 1, token := 42, type := ConnectionType.BlockingQueuedConnection })]
        (constructEventLoop { registry := [], loops := [], log := [] } 1 10)).1).log
    ∧ (signalEmit 1
        [({ obj := 3, fn := 4 },
          { id := 1, token := 42, type := ConnectionType.BlockingQueuedConnection })]
        (constructEventLoop { registry := [], loops := [], log := [] } 1 10)).2
      = [({ obj := 3, fn := 4 }, DispatchAction.sent 10)] := by
  have h := (blocking_queued_self_emit_runs_inline 1
      (constructEventLoop { registry := [], loops := [], log := [] } 1 10)
      { obj := 3, fn := 4 }
      { id := 1, token := 42, type := ConnectionType.BlockingQueuedConnection }
      10 (freshLoop 1) rfl rfl).1 rfl rfl rfl
  exact ⟨h.1, h.2.2⟩

/-! ## C8 — idempotence of Disconnect -/

theorem containsKeyU_filter_self (m : List (Addr × HandlerM)) (a : Addr) :
    containsKeyU (m.filter (fun e => ¬ e.1 = a)) a = false := by
  induction m with
  | nil => rfl
  | cons x xs ih =>
      by_cases hx : x.1 = a
      · simp only [List.filter_cons, hx]
        simpa using ih
      · simpa [List.filter_cons, hx, containsKeyU, List.any_cons] using ih

theorem containsA_filter_self {α : Type} (l : List (Addr × α)) (a : Addr) :
    containsA (l.filter (fun e => ¬ e.1 = a)) a = false := by
  induction l with
  | nil => rfl
  | cons x xs ih =>
      by_cases hx : x.1 = a
      · simp only [List.filter_cons, hx]
        simpa using ih
      · simpa [List.filter_cons, hx, containsA, List.any_cons] using ih

theorem lookupU_eq_none_of_not_contains (m : UMap) (a : Addr) :
    containsKeyU m a = false → lookupU m a = none := by
  induction m with
  | nil => intro _; rfl
  | cons x xs ih =>
      intro hc
      obtain ⟨hx, hxs⟩ := containsKeyU_cons_false hc
      simp only [lookupU, if_neg hx]
      exact ih hxs

theorem RemoveHandler_lookup_none (m : UMap) (a : Addr) :
    lookupU (RemoveHandler m a) a = none := by
  unfold RemoveHandler
  by_cases hc : containsKeyU m a
  · rw [if_pos hc]
    exact lookupU_eq_none_of_not_contains _ a (containsKeyU_filter_self m a)
  · rw [if_neg hc]
    exact lookupU_eq_none_of_not_contains m a (by simpa using hc)

theorem RemoveHandler_not_contains (m : UMap) (a : Addr)
    (hc : containsKeyU m a = false) : RemoveHandler m a = m := by
  unfold RemoveHandler
  rw [hc]
  simp

theorem containsKeyU_RemoveHandler_self (m : UMap) (a : Addr) :
    containsKeyU (RemoveHandler m a) a = false := by
  unfold RemoveHandler
  by_cases hc : containsKeyU m a
  · rw [if_pos hc]
    exact containsKeyU_filter_self m a
  · rw [if_neg hc]
    simpa using hc

theorem RemoveHandler_idem (m : UMap) (a : Addr) :
    RemoveHandler (RemoveHandler m a) a = RemoveHandler m a :=
  RemoveHandler_not_contains _ a (containsKeyU_RemoveHandler_self m a)

/-- C8: Disconnect is idempotent — running the Object-to-Object Disconnect a
second time with the same endpoints reproduces exactly the state the first
call produced (handler set, the sender's receivers index and the receiver's
senders index); and Signal::RemoveHandler erases the address if present and
is itself idempotent. -/
theorem disconnect_idempotent :
    (∀ (sig : UMap) (s r : ObjState) (ra sa : Addr) (out : UMap × ObjState × ObjState),
      disconnectObj sig s r ra sa = some out →
      disconnectObj out.1 out.2.1 out.2.2 ra sa = some out)
    ∧ (∀ (m : UMap) (a : Addr),
        lookupU (RemoveHandler m a) a = none
        ∧ RemoveHandler (RemoveHandler m a) a = RemoveHandler m a) := by
  constructor
  · intro sig s r ra sa out hdc
    unfold disconnectObj at hdc ⊢
    by_cases hg : (containReceiverO s ra && containSenderO r sa) = true
    · rw [if_pos hg] at hdc
      cases hrs : removeSenderO r sa ra.fn with
      | none => rw [hrs] at hdc; exact absurd hdc (by simp)
      | some r1 =>
          rw [hrs] at hdc
          have hout : out = (RemoveHandler sig ra, removeReceiverO s ra, r1) :=
            (Option.some.inj hdc).symm
          subst hout
          have hcr : containReceiverO (removeReceiverO s ra) ra = false := by
            simp only [containReceiverO, removeReceiverO]
            exact containsA_filter_self s.receiversL ra
          rw [if_neg (by simp [hcr])]
          simp [RemoveHandler_idem]
    · rw [if_neg hg] at hdc
      have hout : out = (RemoveHandler sig ra, s, r) := (Option.some.inj hdc).symm
      subst hout
      rw [if_neg hg]
      simp [RemoveHandler_idem]
  · intro m a
    exact ⟨RemoveHandler_lookup_none m a, RemoveHandler_idem m a⟩

/-- C8, witness: a fully connected single-link state, disconnected twice. -/
theorem disconnect_idempotent_witness :
    disconnectObj
        (RemoveHandler [({ obj := 2, fn := 3 },
          { id := 2, token := 5, type := ConnectionType.AutoConnection })] { obj := 2, fn := 3 })
        (removeReceiverO
          { id := 1, sendersL := [], receiversL := [({ obj := 2, fn := 3 }, 21)] }
          { obj := 2, fn := 3 })
        { id := 2, sendersL := [({ obj := 1, fn := 9 }, [])], receiversL := [] }
        { obj := 2, fn := 3 } { obj := 1, fn := 9 }
      = some
        (RemoveHandler [({ obj := 2, fn := 3 },
          { id := 2, token := 5, type := ConnectionType.AutoConnection })] { obj := 2, fn := 3 },
          removeReceiverO
            { id := 1, sendersL := [], receiversL := [({ obj := 2, fn := 3 }, 21)] }
            { obj := 2, fn := 3 },
          { id := 2, sendersL := [({ obj := 1, fn := 9 }, [])], receiversL := [] }) := by
  have h := disconnect_idempotent.1
      [({ obj := 2, fn := 3 },
        { id := 2, token := 5, type := ConnectionType.AutoConnection })]
      { id := 1, sendersL := [], receiversL := [({ obj := 2, fn := 3 }, 21)] }
      { id := 2, sendersL := [({ obj := 1, fn := 9 }, [(3, 22)])], receiversL := [] }
      { obj := 2, fn := 3 } { obj := 1, fn := 9 }
      (RemoveHandler [({ obj := 2, fn := 3 },
        { id := 2, token := 5, type := ConnectionType.AutoConnection })] { obj := 2, fn := 3 },
        removeReceiverO
          { id := 1, sendersL := [], receiversL := [({ obj := 2, fn := 3 }, 21)] }
          { obj := 2, fn := 3 },
        { id := 2, sendersL := [({ obj := 1, fn := 9 }, [])], receiversL := [] })
      (by decide)
  exact h

/-! ## C9 — where Timer::Start registers the repeating timer -/

/-- C9, counterexample.  A Timer with home thread 1 (loop registered at
pointer 10) is started from thread 2 (loop pointer 20): the repeating timer
is registered on the calling thread's loop 20, while the Timer's home
EventLoop keeps no timer registration — Start does not use the Timer's home
loop as the claim states. -/
theorem timer_start_uses_calling_thread_loop :
    getEventLoopPtr (constructEventLoop (constructEventLoop
        { registry := [], loops := [], log := [] } 1 10) 2 20) 1 = some 10
    ∧ assocLookup ((timerStart 2 (constructEventLoop (constructEventLoop
        { registry := [], loops := [], log := [] } 1 10) 2 20)
        { homeId := 1, timerId := 0 } 50).1).loops 10
      = some { owner := 1, queue := [], repeatT := [], timerCounter := 1024 }
    ∧ assocLookup ((timerStart 2 (constructEventLoop (constructEventLoop
        { registry := [], loops := [], log := [] } 1 10) 2 20)
        { homeId := 1, timerId := 0 } 50).1).loops 20
      = some { owner := 2, queue := [], repeatT := [(1024, 50, Task.emitTimeout)],
               timerCounter := 1025 }
    ∧ (10 : Nat) ≠ 20 := by decide

/-- C9, amended: Timer::Start(interval) registers the repeating timer on the
EventLoop registered for the calling thread — not the Timer's home loop —
with a callback that emits the parameterless timeout signal, and stores the
returned timer id on the Timer. -/
theorem timer_start_registers_on_caller_loop :
    ∀ (st : SysState) (tm : TimerM) (caller interval p : Nat) (l : LoopM),
      tm.timerId = 0 →
      getEventLoopPtr st caller = some p →
      assocLookup st.loops p = some l →
      assocLookup ((timerStart caller st tm interval).1).loops p
        = some { l with
            repeatT := l.repeatT ++ [(l.timerCounter, interval, Task.emitTimeout)],
            timerCounter := l.timerCounter + 1 }
      ∧ (timerStart caller st tm interval).2 = { tm with timerId := l.timerCounter } := by
  intro st tm caller interval p l h0 hreg hloop
  simp only [timerStart, h0, lt_self_iff_false, if_false, hreg, hloop, setRepeatTimer]
  constructor
  · rw [assocLookup_updateLoop_self, hloop]
    rfl
  · trivial

/-- C9, witness for the amended theorem at the two-loop world. -/
theorem timer_start_registers_on_caller_loop_witness :
    assocLookup ((timerStart 2 (constructEventLoop (constructEventLoop
        { registry := [], loops := [], log := [] } 1 10) 2 20)
        { homeId := 1, timerId := 0 } 50).1).loops 20
      = some { owner := 2, queue := [], repeatT := [(1024, 50, Task.emitTimeout)],
               timerCounter := 1025 }
    ∧ (timerStart 2 (constructEventLoop (constructEventLoop
        { registry := [], loops := [], log := [] } 1 10) 2 20)
        { homeId := 1, timerId := 0 } 50).2
      = { homeId := 1, timerId := 1024 } := by
  have h := timer_start_registers_on_caller_loop
      (constructEventLoop (constructEventLoop
        { registry := [], loops := [], log := [] } 1 10) 2 20)
      { homeId := 1, timerId := 0 } 2 50 20 (freshLoop 2) rfl rfl rfl
  exact ⟨h.1.trans (by decide), h.2.trans (by decide)⟩

/-! ## C10 — the handler's thread id is a connect-time snapshot -/

/-- C10: the thread id stored in the Handler by the Object-to-Object Connect
is the receiver's home thread id read once at connect time; MoveToThread on
the receiver afterwards changes only the Object's own id, leaving the
installed handler — and hence Emit's routing, which consults only the
stored id — unchanged: an Auto handler still dispatches inline when emitted
from the connect-time home thread, whatever the Object's id is now. -/
theorem handler_id_snapshot_at_connect :
    ∀ (sig : UMap) (sender receiver : ObjState) (ra sa : Addr)
      (tok tokR tokS nid : Nat) (type : ConnectionType),
      containsKeyU sig ra = false →
      lookupU (connectMember sig sender receiver ra sa tok type tokR tokS).1 ra
        = some { id := receiver.id, token := tok, type := type }
      ∧ (moveToThread (connectMember sig sender receiver ra sa tok type tokR tokS).2.2 nid).id
        = nid
      ∧ (∀ st : SysState,
          (signalEmit receiver.id
            [(ra, { id := receiver.id, token := tok
                    , type := ConnectionType.AutoConnection })] st).2
          = [(ra, DispatchAction.inline)]) := by
  intro sig sender receiver ra sa tok tokR tokS nid type hc
  refine ⟨?_, rfl, ?_⟩
  · exact lookupU_AddHandler_self sig ra _ hc
  · intro st
    simp [signalEmit, dispatchOne]

/-- C10, witness: connect with receiver home thread 2, then move the
receiver to thread 5; the stored handler id stays 2. -/
theorem handler_id_snapshot_at_connect_witness :
    lookupU (connectMember emptyU
        { id := 1, sendersL := [], receiversL := [] }
        { id := 2, sendersL := [], receiversL := [] }
        { obj := 8, fn := 9 } { obj := 6, fn := 7 } 11
        ConnectionType.QueuedConnection 21 22).1 { obj := 8, fn := 9 }
      = some { id := 2, token := 11, type := ConnectionType.QueuedConnection }
    ∧ (moveToThread (connectMember emptyU
        { id := 1, sendersL := [], receiversL := [] }
        { id := 2, sendersL := [], receiversL := [] }
        { obj := 8, fn := 9 } { obj := 6, fn := 7 } 11
        ConnectionType.QueuedConnection 21 22).2.2 5).id = 5 := by
  have h := handler_id_snapshot_at_connect emptyU
      { id := 1, sendersL := [], receiversL := [] }
      { id := 2, sendersL := [], receiversL := [] }
      { obj := 8, fn := 9 } { obj := 6, fn := 7 } 11 21 22 5
      ConnectionType.QueuedConnection rfl
  exact ⟨h.1, h.2.1⟩

end WinSignal
